import Mathlib

/-!
Verification of the rule-evaluation and tag-application engine of the
store-verification repository.

The embedding follows the TypeScript source:
 - `src/app/lib/productRules.server.ts` : rule types, `evaluateProductRules`,
   `evaluateSingleRule`, `compareNumeric`, `mergeProductTags`;
 - the webhook helper module (`mapWebhookPayloadToProduct`,
   `applyProductRulesForShop`).

JavaScript numbers are modelled exactly: a non-NaN number is either a
finite value (an exact fraction, idealising float rounding away) or one
of the two infinities; numeric comparison and equality are by
cross-multiplication, so they agree with the value semantics of JS
numbers; `NaN` outcomes of parsing are modelled by `Option.none`,
matching the source's `Number.isNaN` guards.  JS `Set`
iteration order (insertion order) is modelled by duplicate-free list
append.  The effectful orchestrator `applyProductRulesForShop` is
modelled as a pure function from its resolved inputs (shop lookup
result, stored rules, payload) to the list of observable effects it
performs, in order.
-/

/-- A non-NaN JavaScript number: one of the two infinities or a finite
value, kept as an exact (possibly unreduced) fraction `num / den` with
`den` positive by construction. -/
inductive JSNumber where
  | posInf : JSNumber
  | negInf : JSNumber
  | fin : Int → Nat → JSNumber
deriving DecidableEq, Repr

/-- A JS number holding the value of an integer. -/
def JSNumber.ofInt (i : Int) : JSNumber := .fin i 1

/-- The strict `<` of JavaScript on non-NaN numbers (finite values by
cross-multiplication of the positive denominators). -/
def jsLt : JSNumber → JSNumber → Bool
  | .fin n1 d1, .fin n2 d2 => n1 * (d2 : Int) < n2 * (d1 : Int)
  | .negInf, .negInf => false
  | .negInf, _ => true
  | _, .negInf => false
  | .posInf, _ => false
  | .fin _ _, .posInf => true

/-- The `===` of JavaScript on non-NaN numbers: value equality, by
cross-multiplication on finite values. -/
def jsNumEq : JSNumber → JSNumber → Bool
  | .fin n1 d1, .fin n2 d2 => n1 * (d2 : Int) = n2 * (d1 : Int)
  | .posInf, .posInf => true
  | .negInf, .negInf => true
  | _, _ => false

/-- Whitespace class used by JS `trim`, `parseFloat` and `parseInt`
(ASCII portion). -/
def isJsWhitespace (c : Char) : Bool :=
  c = ' ' || c = '\t' || c = '\n' || c = '\r' ||
  c = Char.ofNat 11 || c = Char.ofNat 12

/-- JS `String.prototype.trim` on a character list. -/
def jsTrimList (cs : List Char) : List Char :=
  ((cs.dropWhile isJsWhitespace).reverse.dropWhile isJsWhitespace).reverse

/-- JS `String.prototype.trim`. -/
def jsTrim (s : String) : String :=
  String.mk (jsTrimList s.toList)

/-- JS `String.prototype.toLowerCase` (character-wise, ASCII range). -/
def jsToLower (s : String) : String :=
  String.mk (s.toList.map Char.toLower)

/-- Helper for `jsSplitComma`: accumulates the current piece reversed. -/
def splitCommaAux : List Char → List Char → List String
  | [], cur => [String.mk cur.reverse]
  | c :: rest, cur =>
    if c = ',' then String.mk cur.reverse :: splitCommaAux rest []
    else splitCommaAux rest (c :: cur)

/-- JS `s.split(",")`: the comma-separated pieces of `s`, in order; an
empty string yields one empty piece, like in JS. -/
def jsSplitComma (s : String) : List String :=
  splitCommaAux s.toList []

/-- Numeric value of a run of decimal digits. -/
def digitsToNat (ds : List Char) : ℕ :=
  ds.foldl (fun n c => 10 * n + (c.toNat - 48)) 0

/-- Optional sign prefix: returns the sign (as `1` or `-1`) and the rest. -/
def takeSign : List Char → Int × List Char
  | '+' :: r => (1, r)
  | '-' :: r => (-1, r)
  | r => (1, r)

/-- Exponent suffix of a decimal literal: `e`/`E`, optional sign, then at
least one digit; anything else contributes exponent `0` (the literal's
longest valid prefix stops before the `e`). -/
def takeExponent (cs : List Char) : Int :=
  match cs with
  | 'e' :: r => takeExponentTail r
  | 'E' :: r => takeExponentTail r
  | _ => 0
where
  takeExponentTail (r : List Char) : Int :=
    let (esgn, r2) := takeSign r
    let eds := r2.takeWhile Char.isDigit
    if eds.isEmpty then 0 else esgn * (digitsToNat eds : Int)

/-- Scale a fraction by a power of ten (signed exponent). -/
def scalePow10 (num : Int) (den : Nat) (e : Int) : Int × Nat :=
  if 0 ≤ e then (num * (10 : Int) ^ e.toNat, den)
  else (num, den * 10 ^ (-e).toNat)

/-- JS `parseFloat`: skip leading whitespace, optional sign, then the
longest decimal-literal or `Infinity` prefix; `none` models a `NaN`
result (no valid prefix). -/
def jsParseFloat (s : String) : Option JSNumber :=
  let cs0 := s.toList.dropWhile isJsWhitespace
  let (sgn, cs) := takeSign cs0
  if cs.take 8 = "Infinity".toList then
    some (if sgn = 1 then .posInf else .negInf)
  else
    let intDs := cs.takeWhile Char.isDigit
    let cs2 := cs.drop intDs.length
    let fracDs :=
      match cs2 with
      | '.' :: r => r.takeWhile Char.isDigit
      | _ => []
    if intDs.isEmpty && fracDs.isEmpty then none
    else
      let cs3 :=
        match cs2 with
        | '.' :: r => r.drop fracDs.length
        | _ => cs2
      let expo := takeExponent cs3
      let mantNum : Int :=
        sgn * (digitsToNat intDs * 10 ^ fracDs.length + digitsToNat fracDs : Nat)
      let mantDen : Nat := 10 ^ fracDs.length
      let scaled := scalePow10 mantNum mantDen expo
      some (.fin scaled.1 scaled.2)

/-- JS `parseInt(s, 10)`: skip leading whitespace, optional sign, then a
run of decimal digits; `none` models a `NaN` result (no digits). -/
def jsParseInt (s : String) : Option Int :=
  let cs0 := s.toList.dropWhile isJsWhitespace
  let (sgn, cs) := takeSign cs0
  let ds := cs.takeWhile Char.isDigit
  if ds.isEmpty then none else some (sgn * (digitsToNat ds : Int))

/-- Rule fields supported in v1 (`RuleField` in the source). -/
inductive RuleField where
  | price : RuleField
  | inventory : RuleField
  | vendor : RuleField
deriving DecidableEq, Repr

/-- Rule operators supported in v1 (`RuleOperator` in the source). -/
inductive RuleOperator where
  | gt : RuleOperator
  | lt : RuleOperator
  | eq : RuleOperator
deriving DecidableEq, Repr

/-- The `ProductRule` record of the source (`createdAt` is kept as an
abstract timestamp; it is never read by the evaluation pipeline). -/
structure ProductRule where
  id : String
  shopId : String
  field : RuleField
  operator : RuleOperator
  value : String
  tag : String
  enabled : Bool
  createdAt : Nat := 0
deriving DecidableEq, Repr

/-- The `ProductForEvaluation` record of the source: nullable price,
total inventory and vendor. -/
structure ProductForEvaluation where
  price : Option JSNumber := none
  totalInventory : Option Int := none
  vendor : Option String := none
deriving DecidableEq, Repr

/-- The source's `compareNumeric` on non-NaN numbers. -/
def compareNumeric (actual target : JSNumber) (operator : RuleOperator) : Bool :=
  match operator with
  | .gt => jsLt target actual
  | .lt => jsLt actual target
  | .eq => jsNumEq actual target

/-- The source's `evaluateSingleRule`: per-field predicate.  A null
field, an unparsable rule value, a falsy (empty) vendor, and a
non-`eq` operator on a vendor rule all yield `false`. -/
def evaluateSingleRule (product : ProductForEvaluation) (rule : ProductRule) :
    Bool :=
  match rule.field with
  | .price =>
    match product.price with
    | none => false
    | some p =>
      match jsParseFloat rule.value with
      | none => false
      | some target => compareNumeric p target rule.operator
  | .inventory =>
    match product.totalInventory with
    | none => false
    | some inv =>
      match jsParseInt rule.value with
      | none => false
      | some target =>
        compareNumeric (.ofInt inv) (.ofInt target) rule.operator
  | .vendor =>
    match product.vendor with
    | none => false
    | some v =>
      if v = "" then false
      else if rule.operator ≠ .eq then false
      else jsToLower (jsTrim v) = jsToLower (jsTrim rule.value)

/-- Insertion into a JS `Set` modelled as a duplicate-free list in
insertion order: a no-op when the element is already present. -/
def insertTag (l : List String) (t : String) : List String :=
  if t ∈ l then l else l ++ [t]

/-- Loop body of `evaluateProductRules`: skip the rule when disabled
(`continue`), otherwise add its tag to the set when it matches. -/
def evalStep (product : ProductForEvaluation) (tags : List String)
    (rule : ProductRule) : List String :=
  if rule.enabled && evaluateSingleRule product rule then
    insertTag tags rule.tag
  else tags

/-- The source's `evaluateProductRules`: iterate rules in order, skip
disabled ones, accumulate matching rules' tags into a set (insertion
order, duplicates collapse), and return it as a list. -/
def evaluateProductRules (product : ProductForEvaluation)
    (rules : List ProductRule) : List String :=
  rules.foldl (evalStep product) []

/-- One step of the merge loop in `mergeProductTags`: add the tag to the
set and mark `changed` if it was absent. -/
def mergeStep (acc : List String × Bool) (tag : String) : List String × Bool :=
  if tag ∈ acc.1 then acc else (acc.1 ++ [tag], true)

/-- The deduplication performed by `new Set(existingTags)`: keep the
first occurrence of each element, in order. -/
def dedupKeepFirst (l : List String) : List String :=
  l.foldl insertTag []

/-- The source's `mergeProductTags`: build a set from the existing tags,
add each rule tag not already present, and return the resulting list
only if something was added; `none` is the `NO_CHANGE` sentinel. -/
def mergeProductTags (existingTags ruleTags : List String) :
    Option (List String) :=
  let res := ruleTags.foldl mergeStep (dedupKeepFirst existingTags, false)
  if res.2 then some res.1 else none

/-- A variant entry of the REST product webhook payload (only the fields
the source depends on). -/
structure WebhookVariant where
  price : Option String := none
  inventory_quantity : Option Int := none
deriving DecidableEq, Repr

/-- The `ProductWebhookPayload` shape of the source; optional fields are
`Option`s (`none` covers both `undefined` and `null`). -/
structure ProductWebhookPayload where
  id : Int
  vendor : Option String := none
  variants : Option (List WebhookVariant) := none
  tags : Option String := none
deriving DecidableEq, Repr

/-- The `MappedProduct` record returned by the mapper. -/
structure MappedProduct where
  shopifyProductId : String
  productForEvaluation : ProductForEvaluation
  existingTags : List String
deriving Repr

/-- The source's `mapWebhookPayloadToProduct`: canonical gid, price from
the first variant (NaN collapses to null via the `Number.isNaN` guard),
inventory summed over the variants array when it is present, vendor
passed through, and tags split on commas, trimmed and filtered. -/
def mapWebhookPayloadToProduct (payload : ProductWebhookPayload) :
    MappedProduct :=
  let shopifyProductId := "gid://shopify/Product/" ++ toString payload.id
  let firstVariant := payload.variants.bind List.head?
  let price : Option JSNumber :=
    match firstVariant with
    | none => none
    | some v =>
      match v.price with
      | none => none
      | some ps => jsParseFloat ps
  let totalInventory : Option Int :=
    payload.variants.map
      (fun vs => vs.foldl (fun sum v => sum + v.inventory_quantity.getD 0) 0)
  let vendor := payload.vendor
  let existingTags : List String :=
    match payload.tags with
    | none => []
    | some t => ((jsSplitComma t).map jsTrim).filter (fun tag => 0 < tag.length)
  { shopifyProductId := shopifyProductId
    productForEvaluation :=
      { price := price, totalInventory := totalInventory, vendor := vendor }
    existingTags := existingTags }

/-- Observable effects of one `applyProductRulesForShop` invocation, in
program order: the warning when the shop record is missing, the call to
the payload mapper, and a product-update mutation with its canonical
product id and full tag list. -/
inductive ApplyEffect where
  | warnNoShop : ApplyEffect
  | mapPayload : ApplyEffect
  | mutate : String → List String → ApplyEffect
deriving DecidableEq, Repr

/-- The source's `applyProductRulesForShop`, as a pure function from its
resolved inputs — the shop lookup result (`none` when no Shop record
matches the domain) and the rule list that `getRulesForShop` returns
for that shop — to the ordered list of effects the invocation performs. -/
def applyProductRulesForShop (shopRecord : Option String)
    (rules : List ProductRule) (payload : ProductWebhookPayload) :
    List ApplyEffect :=
  match shopRecord with
  | none => [.warnNoShop]
  | some _ =>
    if rules.length = 0 then []
    else
      let mapped := mapWebhookPayloadToProduct payload
      let ruleTags := evaluateProductRules mapped.productForEvaluation rules
      if ruleTags.length = 0 then [.mapPayload]
      else
        match mergeProductTags mapped.existingTags ruleTags with
        | none => [.mapPayload]
        | some mergedTags =>
          [.mapPayload, .mutate mapped.shopifyProductId mergedTags]

/-- Whether an effect is a product mutation call. -/
def ApplyEffect.isMutation : ApplyEffect → Bool
  | .mutate _ _ => true
  | _ => false

/-- Number of product mutation calls in an effect trace. -/
def countMutations (effects : List ApplyEffect) : Nat :=
  (effects.filter ApplyEffect.isMutation).length

/-! Concrete fixtures used to witness the theorems below; they mirror
the examples of the specification's testable-properties section. -/

/-- Enabled rule: price gt 100 tags "expensive". -/
def rulePriceGt100 : ProductRule :=
  { id := "r100", shopId := "shop-1", field := .price, operator := .gt,
    value := "100", tag := "expensive", enabled := true }

/-- Enabled rule with an unparsable numeric value. -/
def rulePriceGtAbc : ProductRule :=
  { id := "rabc", shopId := "shop-1", field := .price, operator := .gt,
    value := "abc", tag := "t-abc", enabled := true }

/-- Enabled rule: price gt 10. -/
def rulePriceGt10 : ProductRule :=
  { id := "r10", shopId := "shop-1", field := .price, operator := .gt,
    value := "10", tag := "t-10", enabled := true }

/-- Enabled rule: vendor eq "acme". -/
def ruleVendorEqAcme : ProductRule :=
  { id := "rv", shopId := "shop-1", field := .vendor, operator := .eq,
    value := "acme", tag := "vendor-acme", enabled := true }

/-- Enabled vendor rule with the (meaningless) gt operator. -/
def ruleVendorGtAcme : ProductRule :=
  { id := "rvg", shopId := "shop-1", field := .vendor, operator := .gt,
    value := "acme", tag := "vendor-gt", enabled := true }

/-- A disabled rule that would otherwise always match a priced product. -/
def ruleDisabledGt0 : ProductRule :=
  { id := "rd", shopId := "shop-1", field := .price, operator := .gt,
    value := "0", tag := "t-disabled", enabled := false }

/-- Evaluation record with price 50. -/
def prodPrice50 : ProductForEvaluation := { price := some (.ofInt 50) }

/-- Evaluation record with price 120. -/
def prodPrice120 : ProductForEvaluation := { price := some (.ofInt 120) }

/-- Evaluation record with null price. -/
def prodPriceNone : ProductForEvaluation := { price := none }

/-- Evaluation record with vendor "Acme " (trailing space). -/
def prodVendorAcme : ProductForEvaluation := { vendor := some "Acme " }

/-- Webhook payload: id 7, existing tag "sale", one variant priced 120. -/
def payloadSale120 : ProductWebhookPayload :=
  { id := 7, tags := some "sale", variants := some [{ price := some "120.00" }] }

/-- Webhook payload whose tags string repeats a tag. -/
def payloadDupTags : ProductWebhookPayload := { id := 1, tags := some "a,a" }

/-- Webhook payload with a messy tags string. -/
def payloadMessyTags : ProductWebhookPayload :=
  { id := 2, tags := some " a, a ,, b" }

/-- Webhook payload with two variants, one missing its inventory count. -/
def payloadInv : ProductWebhookPayload :=
  { id := 3, variants := some [{ inventory_quantity := some 2 }, {}] }

/-- Webhook payload with no variants field at all. -/
def payloadNoVariants : ProductWebhookPayload := { id := 4 }

/-- Webhook payload whose only variant has an unparsable price string. -/
def payloadBadPrice : ProductWebhookPayload :=
  { id := 5, variants := some [{ price := some "abc" }] }

/-! Helper lemmas about the set/merge primitives. -/

theorem mem_insertTag (l : List String) (u t : String) :
    t ∈ insertTag l u ↔ t ∈ l ∨ t = u := by
  by_cases h : u ∈ l
  · simp only [insertTag, if_pos h]
    constructor
    · exact fun h1 => Or.inl h1
    · rintro (h1 | rfl)
      · exact h1
      · exact h
  · simp only [insertTag, if_neg h, List.mem_append, List.mem_singleton]

theorem mem_foldl_insertTag (l : List String) :
    ∀ (acc : List String) (t : String),
      t ∈ l.foldl insertTag acc ↔ t ∈ acc ∨ t ∈ l := by
  induction l with
  | nil => simp
  | cons u r ih =>
    intro acc t
    simp only [List.foldl_cons, ih, mem_insertTag, List.mem_cons]
    tauto

theorem mem_dedupKeepFirst (l : List String) (t : String) :
    t ∈ dedupKeepFirst l ↔ t ∈ l := by
  simp [dedupKeepFirst, mem_foldl_insertTag]

theorem mergeFold_fst_mono (R : List String) :
    ∀ (acc : List String × Bool) (t : String),
      t ∈ acc.1 → t ∈ (R.foldl mergeStep acc).1 := by
  induction R with
  | nil => exact fun acc t h => h
  | cons u r ih =>
    intro acc t h
    apply ih
    by_cases hu : u ∈ acc.1
    · simpa [mergeStep, hu] using h
    · simp only [mergeStep, if_neg hu, List.mem_append]
      exact Or.inl h

theorem mergeFold_mem (R : List String) :
    ∀ (acc : List String × Bool) (t : String),
      t ∈ R → t ∈ (R.foldl mergeStep acc).1 := by
  induction R with
  | nil => simp
  | cons u r ih =>
    intro acc t h
    rcases List.mem_cons.mp h with rfl | h2
    · rw [List.foldl_cons]
      apply mergeFold_fst_mono r
      by_cases hu : t ∈ acc.1
      · simp [mergeStep, hu]
      · simp [mergeStep, hu]
    · rw [List.foldl_cons]
      exact ih (mergeStep acc u) t h2

theorem mergeFold_eq_self (R : List String) :
    ∀ (acc : List String × Bool), (∀ t ∈ R, t ∈ acc.1) →
      R.foldl mergeStep acc = acc := by
  induction R with
  | nil => exact fun acc _ => rfl
  | cons u r ih =>
    intro acc h
    have hu : u ∈ acc.1 := h u (List.mem_cons_self u r)
    have hstep : mergeStep acc u = acc := by simp [mergeStep, hu]
    rw [List.foldl_cons, hstep]
    exact ih acc fun t ht => h t (List.mem_cons_of_mem u ht)

theorem mergeFold_changed_mono (R : List String) :
    ∀ (acc : List String × Bool), acc.2 = true →
      (R.foldl mergeStep acc).2 = true := by
  induction R with
  | nil => exact fun acc h => h
  | cons u r ih =>
    intro acc h
    apply ih
    by_cases hu : u ∈ acc.1 <;> simp [mergeStep, hu, h]

theorem mergeFold_changed_false (R : List String) :
    ∀ (acc : List String × Bool), (R.foldl mergeStep acc).2 = false →
      ∀ t ∈ R, t ∈ acc.1 := by
  induction R with
  | nil => exact fun acc _ t ht => absurd ht (List.not_mem_nil t)
  | cons u r ih =>
    intro acc hfold t ht
    by_cases hu : u ∈ acc.1
    · have hstep : mergeStep acc u = acc := by simp [mergeStep, hu]
      rw [List.foldl_cons, hstep] at hfold
      rcases List.mem_cons.mp ht with rfl | h2
      · exact hu
      · exact ih acc hfold t h2
    · exfalso
      have hstep : mergeStep acc u = (acc.1 ++ [u], true) := by
        simp [mergeStep, hu]
      rw [List.foldl_cons, hstep] at hfold
      have htrue := mergeFold_changed_mono r (acc.1 ++ [u], true) rfl
      rw [htrue] at hfold
      exact Bool.noConfusion hfold

theorem mergeProductTags_eq_none_iff (E R : List String) :
    mergeProductTags E R = none ↔ ∀ t ∈ R, t ∈ E := by
  constructor
  · intro h t ht
    cases hc : (R.foldl mergeStep (dedupKeepFirst E, false)).2 with
    | true => simp [mergeProductTags, hc] at h
    | false =>
      exact (mem_dedupKeepFirst E t).mp
        (mergeFold_changed_false R (dedupKeepFirst E, false) hc t ht)
  · intro h
    have hself : R.foldl mergeStep (dedupKeepFirst E, false)
        = (dedupKeepFirst E, false) :=
      mergeFold_eq_self R _ fun t ht => (mem_dedupKeepFirst E t).mpr (h t ht)
    simp [mergeProductTags, hself]

theorem mergeProductTags_some_mem (E R T : List String)
    (h : mergeProductTags E R = some T) :
    (∀ t ∈ E, t ∈ T) ∧ (∀ t ∈ R, t ∈ T) := by
  have hT : T = (R.foldl mergeStep (dedupKeepFirst E, false)).1 := by
    cases hc : (R.foldl mergeStep (dedupKeepFirst E, false)).2 with
    | true =>
      simp only [mergeProductTags, hc, if_true] at h
      exact (Option.some.injEq _ _ ▸ h).symm
    | false => simp [mergeProductTags, hc] at h
  constructor
  · intro t ht
    rw [hT]
    exact mergeFold_fst_mono R _ t ((mem_dedupKeepFirst E t).mpr ht)
  · intro t ht
    rw [hT]
    exact mergeFold_mem R _ t ht

/-- C1: evaluate+merge is idempotent.  For every evaluation record P,
rule list RS and existing tag list E, if merging the evaluated tags into
E yields a new list T, then merging the same evaluated tags into T
yields the NO_CHANGE sentinel (none); and if the first merge already
yields none, the identical second call yields none as well. -/
theorem evaluateMerge_idempotent (P : ProductForEvaluation)
    (RS : List ProductRule) (E : List String) :
    (∀ T, mergeProductTags E (evaluateProductRules P RS) = some T →
      mergeProductTags T (evaluateProductRules P RS) = none) ∧
    (mergeProductTags E (evaluateProductRules P RS) = none →
      mergeProductTags E (evaluateProductRules P RS) = none) := by
  constructor
  · intro T hT
    exact (mergeProductTags_eq_none_iff T _).mpr
      (mergeProductTags_some_mem E _ T hT).2
  · exact id

/-- Witness for C1 at a concrete input: record with price 120, the
price-gt-100 rule, existing tag "sale"; the first merge yields
a new list and the second merge on that list yields none. -/
theorem evaluateMerge_idempotent_witness :
    mergeProductTags ["sale", "expensive"]
      (evaluateProductRules prodPrice120 [rulePriceGt100]) = none :=
  (evaluateMerge_idempotent prodPrice120 [rulePriceGt100] ["sale"]).1
    ["sale", "expensive"] (by decide)

/-- C2: the merge is non-destructive.  A some-result contains every
existing tag and every rule tag, and the result is none exactly when
every rule tag already occurs among the existing tags. -/
theorem mergeProductTags_nondestructive (E R : List String) :
    (∀ T, mergeProductTags E R = some T →
      (∀ t ∈ E, t ∈ T) ∧ (∀ t ∈ R, t ∈ T)) ∧
    (mergeProductTags E R = none ↔ ∀ t ∈ R, t ∈ E) :=
  ⟨fun T h => mergeProductTags_some_mem E R T h,
   mergeProductTags_eq_none_iff E R⟩

/-- Witness for C2 at a concrete input: merging rule tag "b" into
existing tags containing only "a" yields a list containing both. -/
theorem mergeProductTags_nondestructive_witness :
    (∀ t ∈ ["a"], t ∈ ["a", "b"]) ∧ (∀ t ∈ ["b"], t ∈ ["a", "b"]) :=
  (mergeProductTags_nondestructive ["a"] ["b"]).1 ["a", "b"] (by decide)

/-! Helper lemmas about the evaluator loop. -/

theorem evalFold_filter_enabled (P : ProductForEvaluation)
    (rules : List ProductRule) :
    ∀ acc : List String,
      rules.foldl (evalStep P) acc
        = (rules.filter fun r => r.enabled).foldl (evalStep P) acc := by
  induction rules with
  | nil => exact fun acc => rfl
  | cons r rs ih =>
    intro acc
    by_cases hr : r.enabled = true
    · rw [List.foldl_cons, List.filter_cons_of_pos hr, List.foldl_cons]
      exact ih (evalStep P acc r)
    · have hstep : evalStep P acc r = acc := by
        simp only [evalStep, Bool.not_eq_true] at hr ⊢
        simp [hr]
      rw [List.foldl_cons, hstep, List.filter_cons_of_neg hr]
      exact ih acc

/-- C9: disabled rules contribute nothing.  Evaluating a rule list gives
exactly the same result as evaluating only its enabled rules, and a
list of only-disabled rules yields the empty tag list. -/
theorem disabled_rules_ignored :
    (∀ (P : ProductForEvaluation) (rules : List ProductRule),
      evaluateProductRules P rules
        = evaluateProductRules P (rules.filter fun r => r.enabled)) ∧
    (∀ (P : ProductForEvaluation) (rules : List ProductRule),
      (∀ r ∈ rules, r.enabled = false) → evaluateProductRules P rules = []) := by
  constructor
  · intro P rules
    exact evalFold_filter_enabled P rules []
  · intro P rules h
    have hfilter : (rules.filter fun r => r.enabled) = [] := by
      rw [List.filter_eq_nil_iff]
      intro r hr
      simp [h r hr]
    calc evaluateProductRules P rules
        = evaluateProductRules P (rules.filter fun r => r.enabled) :=
          evalFold_filter_enabled P rules []
      _ = [] := by rw [hfilter]; rfl

/-- Witness for C9 at a concrete input: a single disabled rule that
would match price 120 yields the empty tag list. -/
theorem disabled_rules_ignored_witness :
    evaluateProductRules prodPrice120 [ruleDisabledGt0] = [] :=
  disabled_rules_ignored.2 prodPrice120 [ruleDisabledGt0] (by decide)

/-- C3: mutation discipline of the applier.  Every invocation performs
at most one product mutation; with the shop record found, an empty
stored rule list returns immediately with no effects at all (so before
payload mapping); an empty evaluator result or a NO_CHANGE merge
performs zero mutations; and in the remaining cases (rules present and
the merger returning a new list T) the trace is exactly one payload
mapping followed by exactly one mutation carrying T against the
canonical product id. -/
theorem apply_mutation_discipline :
    (∀ (shopRecord : Option String) (rules : List ProductRule)
        (payload : ProductWebhookPayload),
      countMutations (applyProductRulesForShop shopRecord rules payload) ≤ 1) ∧
    (∀ (sid : String) (payload : ProductWebhookPayload),
      applyProductRulesForShop (some sid) [] payload = []) ∧
    (∀ (sid : String) (rules : List ProductRule)
        (payload : ProductWebhookPayload),
      evaluateProductRules
          (mapWebhookPayloadToProduct payload).productForEvaluation rules = [] →
      countMutations (applyProductRulesForShop (some sid) rules payload) = 0) ∧
    (∀ (sid : String) (rules : List ProductRule)
        (payload : ProductWebhookPayload),
      mergeProductTags (mapWebhookPayloadToProduct payload).existingTags
          (evaluateProductRules
            (mapWebhookPayloadToProduct payload).productForEvaluation rules)
        = none →
      countMutations (applyProductRulesForShop (some sid) rules payload) = 0) ∧
    (∀ (sid : String) (rules : List ProductRule)
        (payload : ProductWebhookPayload) (T : List String),
      rules ≠ [] →
      mergeProductTags (mapWebhookPayloadToProduct payload).existingTags
          (evaluateProductRules
            (mapWebhookPayloadToProduct payload).productForEvaluation rules)
        = some T →
      applyProductRulesForShop (some sid) rules payload =
        [ApplyEffect.mapPayload,
         ApplyEffect.mutate (mapWebhookPayloadToProduct payload).shopifyProductId T]) := by
  refine ⟨?_, ?_, ?_, ?_, ?_⟩
  · intro shopRecord rules payload
    cases shopRecord with
    | none => simp [applyProductRulesForShop, countMutations, ApplyEffect.isMutation]
    | some sid =>
      simp only [applyProductRulesForShop]
      split
      · simp [countMutations]
      · split
        · simp [countMutations, ApplyEffect.isMutation]
        · split
          · simp [countMutations, ApplyEffect.isMutation]
          · simp [countMutations, ApplyEffect.isMutation, List.filter]
  · intro sid payload
    rfl
  · intro sid rules payload h
    simp only [applyProductRulesForShop]
    split
    · simp [countMutations]
    · simp [h, countMutations, ApplyEffect.isMutation]
  · intro sid rules payload h
    simp only [applyProductRulesForShop]
    split
    · simp [countMutations]
    · by_cases he :
        evaluateProductRules
          (mapWebhookPayloadToProduct payload).productForEvaluation rules = []
      · simp [he, countMutations, ApplyEffect.isMutation]
      · have hlen :
            ¬ (evaluateProductRules
                (mapWebhookPayloadToProduct payload).productForEvaluation
                rules).length = 0 := by
          simpa [List.length_eq_zero] using he
        simp [hlen, h, countMutations, ApplyEffect.isMutation]
  · intro sid rules payload T hrules hmerge
    have hrt :
        evaluateProductRules
          (mapWebhookPayloadToProduct payload).productForEvaluation rules ≠ [] := by
      intro h0
      rw [h0] at hmerge
      simp [mergeProductTags] at hmerge
    have hlenr : ¬ rules.length = 0 := by
      simpa [List.length_eq_zero] using hrules
    have hlent :
        ¬ (evaluateProductRules
            (mapWebhookPayloadToProduct payload).productForEvaluation
            rules).length = 0 := by
      simpa [List.length_eq_zero] using hrt
    simp [applyProductRulesForShop, hlenr, hlent, hmerge]

/-- Witness for C3 at a concrete input: shop found, the price-gt-100
rule, a payload with price 120 and existing tag "sale"; the trace is
one payload mapping and one mutation with the full merged tag list. -/
theorem apply_mutation_discipline_witness :
    applyProductRulesForShop (some "shop-1") [rulePriceGt100] payloadSale120 =
      [ApplyEffect.mapPayload,
       ApplyEffect.mutate
         (mapWebhookPayloadToProduct payloadSale120).shopifyProductId
         ["sale", "expensive"]] :=
  apply_mutation_discipline.2.2.2.2 "shop-1" [rulePriceGt100] payloadSale120
    ["sale", "expensive"] (by decide) (by decide)

theorem foldl_add_inventory (vs : List WebhookVariant) :
    ∀ a : Int,
      vs.foldl (fun sum v => sum + v.inventory_quantity.getD 0) a
        = a + (vs.map (fun v => v.inventory_quantity.getD 0)).sum := by
  induction vs with
  | nil => intro a; simp
  | cons v r ih =>
    intro a
    rw [List.foldl_cons, ih, List.map_cons, List.sum_cons]
    ring

/-- C4: inventory mapping.  When the variants field is present, the
mapped totalInventory is the sum over all variant entries of their
inventory counts with a missing count contributing zero (so a present
but empty variants array sums to zero); when the payload carries no
variants field, totalInventory is null (none), never zero. -/
theorem totalInventory_mapping (payload : ProductWebhookPayload) :
    (∀ vs, payload.variants = some vs →
      (mapWebhookPayloadToProduct payload).productForEvaluation.totalInventory
        = some ((vs.map (fun v => v.inventory_quantity.getD 0)).sum)) ∧
    (payload.variants = none →
      (mapWebhookPayloadToProduct payload).productForEvaluation.totalInventory
        = none) := by
  constructor
  · intro vs hvs
    simp [mapWebhookPayloadToProduct, hvs, foldl_add_inventory]
  · intro hn
    simp [mapWebhookPayloadToProduct, hn]

/-- Witness for C4 at concrete inputs: two variants with counts 2 and
missing sum to 2; a payload without a variants field maps to none. -/
theorem totalInventory_mapping_witness :
    (mapWebhookPayloadToProduct payloadInv).productForEvaluation.totalInventory
        = some ((([{ inventory_quantity := some 2 }, {}] :
            List WebhookVariant).map (fun v => v.inventory_quantity.getD 0)).sum) ∧
    (mapWebhookPayloadToProduct payloadNoVariants).productForEvaluation.totalInventory
        = none :=
  ⟨(totalInventory_mapping payloadInv).1 _ rfl,
   (totalInventory_mapping payloadNoVariants).2 rfl⟩

/-- C5: price mapping.  The mapped price is computed from the first
variant only: it is null when there is no first variant, null when the
first variant has no price string, and equal to the parse of the first
variant's price string otherwise (hence null, never zero, when that
string does not parse); and a price rule never matches a record whose
price is null. -/
theorem price_mapping (payload : ProductWebhookPayload) :
    (payload.variants.bind List.head? = none →
      (mapWebhookPayloadToProduct payload).productForEvaluation.price = none) ∧
    (∀ v, payload.variants.bind List.head? = some v → v.price = none →
      (mapWebhookPayloadToProduct payload).productForEvaluation.price = none) ∧
    (∀ v ps, payload.variants.bind List.head? = some v → v.price = some ps →
      (mapWebhookPayloadToProduct payload).productForEvaluation.price
        = jsParseFloat ps) ∧
    (∀ (p : ProductForEvaluation) (rule : ProductRule),
      rule.field = RuleField.price → p.price = none →
      evaluateSingleRule p rule = false) := by
  refine ⟨?_, ?_, ?_, ?_⟩
  · intro h
    simp [mapWebhookPayloadToProduct, h]
  · intro v h hp
    simp [mapWebhookPayloadToProduct, h, hp]
  · intro v ps h hp
    simp [mapWebhookPayloadToProduct, h, hp]
  · intro p rule hf hp
    simp [evaluateSingleRule, hf, hp]

/-- Witness for C5 at a concrete input: the only variant's price string
"abc" does not parse, so the mapped price is its (NaN) parse, and that
parse is none. -/
theorem price_mapping_witness :
    (mapWebhookPayloadToProduct payloadBadPrice).productForEvaluation.price
      = jsParseFloat "abc" :=
  (price_mapping payloadBadPrice).2.2.1 { price := some "abc" } "abc" rfl rfl

theorem string_length_pos_iff (t : String) : 0 < t.length ↔ t ≠ "" := by
  cases t with
  | mk data =>
    cases data with
    | nil => simp [String.length]
    | cons c cs => simp [String.length, String.ext_iff]

/-- C6 counterexample: the claim asserts the mapped existing tag list is
deduplicated, but the mapper performs no deduplication — the tags
string "a,a" maps to the list with "a" twice. -/
theorem existingTags_dedup_counterexample :
    (mapWebhookPayloadToProduct payloadDupTags).existingTags = ["a", "a"] ∧
    ¬ (mapWebhookPayloadToProduct payloadDupTags).existingTags.Nodup := by
  constructor
  · decide
  · decide

/-- C6 as amended: the mapped existing tag list is obtained by splitting
the comma-joined tags string, trimming each piece and discarding empty
pieces — duplicates, however, are kept, so the list need not be
duplicate-free; a missing tags string yields the empty list, and every
resulting tag is non-empty. -/
theorem existingTags_mapping (payload : ProductWebhookPayload) :
    (∀ s, payload.tags = some s →
      (mapWebhookPayloadToProduct payload).existingTags
        = ((jsSplitComma s).map jsTrim).filter (fun t => t ≠ "")) ∧
    (payload.tags = none →
      (mapWebhookPayloadToProduct payload).existingTags = []) ∧
    (∀ t ∈ (mapWebhookPayloadToProduct payload).existingTags, t ≠ "") := by
  have hfilter :
      ∀ l : List String,
        l.filter (fun t => 0 < t.length) = l.filter (fun t => t ≠ "") := by
    intro l
    apply List.filter_congr
    intro t _
    simp [string_length_pos_iff t]
  refine ⟨?_, ?_, ?_⟩
  · intro s hs
    simp only [mapWebhookPayloadToProduct, hs]
    exact hfilter _
  · intro hn
    simp [mapWebhookPayloadToProduct, hn]
  · intro t ht
    cases hs : payload.tags with
    | none =>
      rw [show (mapWebhookPayloadToProduct payload).existingTags = [] by
        simp [mapWebhookPayloadToProduct, hs]] at ht
      exact absurd ht (List.not_mem_nil t)
    | some s =>
      rw [show (mapWebhookPayloadToProduct payload).existingTags
          = ((jsSplitComma s).map jsTrim).filter (fun t => t ≠ "") by
        rw [show (mapWebhookPayloadToProduct payload).existingTags
            = ((jsSplitComma s).map jsTrim).filter (fun t => 0 < t.length) by
          simp only [mapWebhookPayloadToProduct, hs]]
        exact hfilter _] at ht
      have := List.of_mem_filter ht
      simpa using this

/-- Witness for the amended C6 at a concrete input: the messy tags
string of `payloadMessyTags` maps to its split/trim/filter image. -/
theorem existingTags_mapping_witness :
    (mapWebhookPayloadToProduct payloadMessyTags).existingTags
      = ((jsSplitComma " a, a ,, b").map jsTrim).filter (fun t => t ≠ "") :=
  (existingTags_mapping payloadMessyTags).1 " a, a ,, b" rfl

/-- C7: evaluation is total and degrades to no-match.  The embedded
evaluator is a total function by construction; moreover a price or
inventory rule whose value does not parse never matches, a rule on a
field whose record value is null never matches, and the two concrete
examples of the claim both evaluate to the empty tag list. -/
theorem evaluation_degrades_to_no_match :
    (∀ (p : ProductForEvaluation) (rule : ProductRule),
      rule.field = RuleField.price → jsParseFloat rule.value = none →
      evaluateSingleRule p rule = false) ∧
    (∀ (p : ProductForEvaluation) (rule : ProductRule),
      rule.field = RuleField.inventory → jsParseInt rule.value = none →
      evaluateSingleRule p rule = false) ∧
    (∀ (p : ProductForEvaluation) (rule : ProductRule),
      rule.field = RuleField.price → p.price = none →
      evaluateSingleRule p rule = false) ∧
    (∀ (p : ProductForEvaluation) (rule : ProductRule),
      rule.field = RuleField.inventory → p.totalInventory = none →
      evaluateSingleRule p rule = false) ∧
    (∀ (p : ProductForEvaluation) (rule : ProductRule),
      rule.field = RuleField.vendor → p.vendor = none →
      evaluateSingleRule p rule = false) ∧
    evaluateProductRules prodPrice50 [rulePriceGtAbc] = [] ∧
    evaluateProductRules prodPriceNone [rulePriceGt10] = [] := by
  refine ⟨?_, ?_, ?_, ?_, ?_, by decide, by decide⟩
  · intro p rule hf hv
    cases hp : p.price with
    | none => simp [evaluateSingleRule, hf, hp]
    | some q => simp [evaluateSingleRule, hf, hp, hv]
  · intro p rule hf hv
    cases hp : p.totalInventory with
    | none => simp [evaluateSingleRule, hf, hp]
    | some q => simp [evaluateSingleRule, hf, hp, hv]
  · intro p rule hf hp
    simp [evaluateSingleRule, hf, hp]
  · intro p rule hf hp
    simp [evaluateSingleRule, hf, hp]
  · intro p rule hf hp
    simp [evaluateSingleRule, hf, hp]

/-- Witness for C7 at a concrete input: a price rule against a record
with null price does not match. -/
theorem evaluation_degrades_to_no_match_witness :
    evaluateSingleRule prodPriceNone rulePriceGt10 = false :=
  evaluation_degrades_to_no_match.2.2.1 prodPriceNone rulePriceGt10 rfl rfl

/-- C8: the vendor predicate.  A vendor rule matches only when the
record's vendor is known and the operator is eq; gt and lt on a vendor
rule never match any record; under eq with a known, non-empty vendor
the match holds exactly when the trimmed, lower-cased vendor equals the
trimmed, lower-cased rule value; and the claim's concrete example
(vendor "Acme " against value "acme") matches. -/
theorem vendor_predicate :
    (∀ (p : ProductForEvaluation) (rule : ProductRule),
      rule.field = RuleField.vendor → evaluateSingleRule p rule = true →
      (∃ v, p.vendor = some v) ∧ rule.operator = RuleOperator.eq) ∧
    (∀ (p : ProductForEvaluation) (rule : ProductRule),
      rule.field = RuleField.vendor →
      (rule.operator = RuleOperator.gt ∨ rule.operator = RuleOperator.lt) →
      evaluateSingleRule p rule = false) ∧
    (∀ (p : ProductForEvaluation) (rule : ProductRule) (v : String),
      rule.field = RuleField.vendor → rule.operator = RuleOperator.eq →
      p.vendor = some v → v ≠ "" →
      (evaluateSingleRule p rule = true ↔
        jsToLower (jsTrim v) = jsToLower (jsTrim rule.value))) ∧
    evaluateProductRules prodVendorAcme [ruleVendorEqAcme]
      = [ruleVendorEqAcme.tag] := by
  refine ⟨?_, ?_, ?_, by decide⟩
  · intro p rule hf hm
    cases hv : p.vendor with
    | none => simp [evaluateSingleRule, hf, hv] at hm
    | some v =>
      refine ⟨⟨v, rfl⟩, ?_⟩
      by_contra hop
      simp [evaluateSingleRule, hf, hv, hop] at hm
  · intro p rule hf hop
    cases hv : p.vendor with
    | none => simp [evaluateSingleRule, hf, hv]
    | some v =>
      rcases hop with h | h <;> simp [evaluateSingleRule, hf, hv, h]
  · intro p rule v hf hop hv hne
    simp [evaluateSingleRule, hf, hop, hv, hne]

/-- Witness for C8 at a concrete input: the gt operator on a vendor rule
does not match a record with a known vendor. -/
theorem vendor_predicate_witness :
    evaluateSingleRule prodVendorAcme ruleVendorGtAcme = false :=
  vendor_predicate.2.1 prodVendorAcme ruleVendorGtAcme rfl (Or.inl rfl)

/-- C10: a record whose vendor is the empty string is treated as having
an unknown vendor — no vendor rule matches it, for any operator and any
value, because the empty string is falsy in the vendor guard. -/
theorem empty_vendor_never_matches (p : ProductForEvaluation)
    (rule : ProductRule) (hf : rule.field = RuleField.vendor)
    (hv : p.vendor = some "") :
    evaluateSingleRule p rule = false := by
  simp [evaluateSingleRule, hf, hv]

/-- Witness for C10 at a concrete input: the vendor-eq-acme rule does
not match a record whose vendor is the empty string. -/
theorem empty_vendor_never_matches_witness :
    evaluateSingleRule { vendor := some "" } ruleVendorEqAcme = false :=
  empty_vendor_never_matches { vendor := some "" } ruleVendorEqAcme rfl rfl
